import Mathlib

/-!
# RotatingBehaviour (OTTER, Week3-Starter-Fixed)

A shallow embedding of `Gameplay/Components/RotatingBehaviour.{h,cpp}`.

The component is embedded twice, statement by statement the same, under two
readings of the C++ `float`:

* the exact reading (`Awake`, `Update`, `lifetime`): a `float` is a rational
  (`ℚ`) and no operation rounds. It carries the claims that are stated in exact
  arithmetic and the claims about `keyframe`, which no rounding touches;
* the binary32 reading (`Awake32`, `Update32`, `lifetime32`): a `float` is an
  `F32` and every operation rounds to the nearest binary32 value, each
  operation on its own (no fused multiply-add, no wider intermediate). It
  carries the claims whose truth depends on rounding.

Conventions of both:

* `int keyframe` is an `Int`; comparisons against `keypoints.size() - 1`
  convert both sides to a 64-bit `size_t`, as the C++ comparison does.
* `std::vector<float> keypoints` is a list (`List ℚ`, `List F32`); an index
  outside the vector is a fault (`none`).
* In the exact reading a division whose divisor is zero is a fault (`none`):
  the float result (infinity or NaN) has no rational value. In the binary32
  reading it gives the infinity or NaN that binary32 gives.
* `keyframe++` is `+ 1` on `Int`; on an activated component `keyframe` stays
  among 0, 1 and 2, far from the bounds of `int`.
* `void` member functions that mutate the component and its owner become
  functions returning the new component and owner.
-/

namespace Otter

/-! ## Host types -/

/-- Three rational components, standing for `glm::vec3`. -/
structure Vec3 where
  x : ℚ
  y : ℚ
  z : ℚ
deriving DecidableEq

/-- Componentwise sum, `glm::vec3 + glm::vec3`. -/
def Vec3.add (a b : Vec3) : Vec3 := ⟨a.x + b.x, a.y + b.y, a.z + b.z⟩

/-- Product with a scalar on the right, `glm::vec3 * float`. -/
def Vec3.scale (a : Vec3) (s : ℚ) : Vec3 := ⟨a.x * s, a.y * s, a.z * s⟩

instance : Add Vec3 := ⟨Vec3.add⟩

instance : HMul Vec3 ℚ Vec3 := ⟨Vec3.scale⟩

/-- Modelled from the spec: the owning `GameObject` (engine code outside this
component). Only its transform is kept, and the getters return exactly what
the setters stored. -/
structure GameObject where
  position : Vec3
  rotationEuler : Vec3
deriving DecidableEq

/-- Reads the owner's position. -/
def GameObject.GetPosition (g : GameObject) : Vec3 := g.position

/-- Stores the owner's position (the engine spells it `SetPostion`). -/
def GameObject.SetPostion (g : GameObject) (p : Vec3) : GameObject :=
  { g with position := p }

/-- Reads the owner's Euler rotation. -/
def GameObject.GetRotationEuler (g : GameObject) : Vec3 := g.rotationEuler

/-- Stores the owner's Euler rotation. -/
def GameObject.SetRotation (g : GameObject) (r : Vec3) : GameObject :=
  { g with rotationEuler := r }

/-! ## The component -/

/-- Fields of `class RotatingBehaviour` (RotatingBehaviour.h, lines 15 and 30-40). -/
structure RotatingBehaviour where
  RotationSpeed : Vec3
  _segmentIndex : Nat
  _timer : ℚ
  _TravelTime : ℚ
  _startTime : ℚ
  _timeStored : ℚ
  _speed : ℚ
  keypoints : List ℚ
  _journeyLength : ℚ
  keyframe : Int
deriving DecidableEq

/-- `RotatingBehaviour::RotatingBehaviour(float startTime)` (lines 8-19), with the
in-class initialiser `RotationSpeed = glm::vec3(0,0,30)` of the header. -/
def RotatingBehaviour.construct (startTime : ℚ) : RotatingBehaviour :=
  { RotationSpeed := ⟨0, 0, 30⟩
    _segmentIndex := 0
    _TravelTime := 5
    _startTime := startTime
    _timeStored := 0
    keyframe := 0
    _speed := 1
    _journeyLength := 0
    _timer := 1
    keypoints := [] }

/-- `RotatingBehaviour::RotatingBehaviour()` (lines 20-30). -/
def RotatingBehaviour.constructDefault : RotatingBehaviour :=
  { RotationSpeed := ⟨0, 0, 30⟩
    _segmentIndex := 0
    _TravelTime := 5
    _startTime := 0
    _timeStored := 0
    keyframe := 0
    _speed := 1
    _journeyLength := 0
    _timer := 1
    keypoints := [] }

/-- Conversion of an `int` to a 64-bit `size_t`. -/
def toSizeT (i : Int) : Int := i % 18446744073709551616

/-- `keypoints.size() - 1`, computed in `size_t`. -/
def lastIndex (keypoints : List ℚ) : Int := toSizeT ((keypoints.length : Int) - 1)

/-- `keypoints[i]` for an `int` index: the value, or a fault outside the vector. -/
def index (keypoints : List ℚ) (i : Int) : Option ℚ :=
  if 0 ≤ i then keypoints[i.toNat]? else none

/-- Float division; a zero divisor is a fault. -/
def fdiv (a b : ℚ) : Option ℚ := if b = 0 then none else some (a / b)

/-- `RotatingBehaviour::Lerp` (lines 89-93) at `T = float`. -/
def Lerp (p0 p1 t : ℚ) : ℚ := (1 - t) * p0 + t * p1

/-- Line 56: `sqt = fractionOfJourney * fractionOfJourney`. -/
def sqt (fractionOfJourney : ℚ) : ℚ := fractionOfJourney * fractionOfJourney

/-- Divisor of line 58: `2.0f * (sqt - fractionOfJourney) + 1.0f`. -/
def SlowInOutDenominator (fractionOfJourney : ℚ) : ℚ :=
  2 * (sqt fractionOfJourney - fractionOfJourney) + 1

/-- Line 58: `SlowInOut = sqt / (2.0f * (sqt - fractionOfJourney) + 1.0f)`. -/
def SlowInOut (fractionOfJourney : ℚ) : Option ℚ :=
  fdiv (sqt fractionOfJourney) (SlowInOutDenominator fractionOfJourney)

/-- `RotatingBehaviour::Awake` (lines 32-38): three `push_back`s of the owner's
z-coordinate, then the journey length from the pair at `keyframe`. -/
def Awake (self : RotatingBehaviour) (obj : GameObject) : Option RotatingBehaviour := do
  let keypoints := self.keypoints ++ [obj.GetPosition.z]
  let keypoints := keypoints ++ [obj.GetPosition.z + 2]
  let keypoints := keypoints ++ [obj.GetPosition.z]
  let a ← index keypoints self.keyframe
  let b ← index keypoints (self.keyframe + 1)
  pure { self with keypoints := keypoints, _journeyLength := abs (a - b) }

/-- What one call of `Update` leaves behind: the component, the owner, and the
values of the locals the call computed. -/
structure TickRecord where
  /-- the local `fractionOfJourney` (line 49) -/
  fractionOfJourney : ℚ
  /-- the value of `keyframe` at the two reads of line 62 -/
  readIndex : Int
  /-- the local `SlowInOut` (line 58) -/
  eased : ℚ
  /-- whether the branch of lines 64-68 was taken -/
  completed : Bool
  /-- the component after the call -/
  self : RotatingBehaviour
  /-- the owner after the call -/
  obj : GameObject
deriving DecidableEq

/-- `RotatingBehaviour::Update` (lines 40-70). -/
def Update (self : RotatingBehaviour) (obj : GameObject) (deltaTime : ℚ) :
    Option TickRecord := do
  let obj := obj.SetRotation (obj.GetRotationEuler + self.RotationSpeed * deltaTime)
  let _timer := self._timer + deltaTime
  let distCovered := (_timer - self._startTime - self._timeStored) * self._speed
  let fractionOfJourney ← fdiv distCovered self._journeyLength
  let keyframe : Int :=
    if toSizeT self.keyframe = lastIndex self.keypoints then 0 else self.keyframe
  let slowInOut ← SlowInOut fractionOfJourney
  let currentPosition := obj.GetPosition
  let p0 ← index self.keypoints keyframe
  let p1 ← index self.keypoints (keyframe + 1)
  let obj := obj.SetPostion ⟨currentPosition.x, currentPosition.y, Lerp p0 p1 slowInOut⟩
  if 1 ≤ fractionOfJourney ∧ toSizeT keyframe ≠ lastIndex self.keypoints then
    pure { fractionOfJourney := fractionOfJourney, readIndex := keyframe, eased := slowInOut,
           completed := true,
           self := { self with _timer := _timer, _timeStored := _timer - self._startTime,
                               keyframe := keyframe + 1 },
           obj := obj }
  else
    pure { fractionOfJourney := fractionOfJourney, readIndex := keyframe, eased := slowInOut,
           completed := false,
           self := { self with _timer := _timer, keyframe := keyframe },
           obj := obj }

/-- The records of successive `Update` calls with the given `deltaTime`s, one per
call; a faulting call ends the list. -/
def ticks (self : RotatingBehaviour) (obj : GameObject) : List ℚ → List TickRecord
  | [] => []
  | deltaTime :: rest =>
    match Update self obj deltaTime with
    | none => []
    | some r => r :: ticks r.self r.obj rest

/-- The component and owner after successive `Update` calls, or a fault. -/
def run (self : RotatingBehaviour) (obj : GameObject) :
    List ℚ → Option (RotatingBehaviour × GameObject)
  | [] => some (self, obj)
  | deltaTime :: rest =>
    match Update self obj deltaTime with
    | none => none
    | some r => run r.self r.obj rest

/-- A freshly constructed component whose public `RotationSpeed` has been set. -/
def fresh (startTime : ℚ) (rotationSpeed : Vec3) : RotatingBehaviour :=
  { RotatingBehaviour.construct startTime with RotationSpeed := rotationSpeed }

/-! ## Runs -/

/-- A freshly constructed component with its rotation speed set, one `Awake`,
then successive `Update`s: the records of the updates. -/
def lifetime (startTime : ℚ) (v : Vec3) (obj : GameObject) (ds : List ℚ) : List TickRecord :=
  match Awake (fresh startTime v) obj with
  | none => []
  | some c => ticks c obj ds

/-- A freshly constructed component with its rotation speed set, one `Awake`,
then successive `Update`s: the component and owner at the end, or a fault. -/
def lifetimeEnd (startTime : ℚ) (v : Vec3) (obj : GameObject) (ds : List ℚ) :
    Option (RotatingBehaviour × GameObject) :=
  match Awake (fresh startTime v) obj with
  | none => none
  | some c => run c obj ds

/-- Whether a tick saw `fractionOfJourney >= 1`. -/
def reachedEnd (r : TickRecord) : Bool := decide (1 ≤ r.fractionOfJourney)

/-- The spec's traversal rule, in its words: a segment completes on the first
tick at which the `deltaTime` accumulated since the segment began reaches
`journeyLength / speed = 2`, and on no earlier tick. `elapsed` is the time
already accumulated in the current segment; the result says, tick by tick,
whether the tick completes a segment. -/
def completionSchedule (elapsed : ℚ) : List ℚ → List Bool
  | [] => []
  | deltaTime :: rest =>
    if 2 ≤ elapsed + deltaTime then true :: completionSchedule 0 rest
    else false :: completionSchedule (elapsed + deltaTime) rest

/-! ## Persistence -/

/-- Modelled from the spec: a JSON value as the host's serialization framework
(nlohmann::json, outside this component) holds it. -/
inductive Json where
  | null
  | bool (b : Bool)
  | number (q : ℚ)
  | string (s : String)
  | array (items : List Json)
  | object (fields : List (String × Json))

/-- Modelled from the spec: the value of a field of a JSON record, when the
record has the field. -/
def Json.field? : Json → String → Option Json
  | .object fields, key => fields.lookup key
  | _, _ => none

/-- Modelled from the spec: a `glm::vec3` as a JSON value, an array of three
numbers `[x, y, z]`. -/
def Json.ofVec3 (v : Vec3) : Json := .array [.number v.x, .number v.y, .number v.z]

/-- Modelled from the spec: the `glm::vec3` a JSON value stands for, when it
is an array of three numbers. -/
def Json.toVec3? : Json → Option Vec3
  | .array [.number x, .number y, .number z] => some ⟨x, y, z⟩
  | _ => none

/-- Modelled from the spec: `JsonGet(data, key, default)` of
`Utils/JsonGlmHelpers.h`, which is not among the sources. It gives the value of
the field when the record has it, and the default when the field is absent (or
malformed). -/
def JsonGet (data : Json) (key : String) (defaultValue : Vec3) : Vec3 :=
  match data.field? key with
  | some j => j.toVec3?.getD defaultValue
  | none => defaultValue

/-- `RotatingBehaviour::ToJson` (lines 76-80). -/
def ToJson (self : RotatingBehaviour) : Json :=
  .object [("speed", Json.ofVec3 self.RotationSpeed)]

/-- `RotatingBehaviour::FromJson` (lines 82-86). -/
def FromJson (data : Json) : RotatingBehaviour :=
  let result := RotatingBehaviour.constructDefault
  { result with RotationSpeed := JsonGet data "speed" result.RotationSpeed }

/-! ## Reachable components -/

/-- What holds of the component from `Awake` on, through every `Update`: the
three keypoints around `z0`, journey length 2, speed 1, the constructor's start
time, the configured rotation speed, and a `keyframe` among 0, 1, 2. -/
def Activated (startTime z0 : ℚ) (v : Vec3) (c : RotatingBehaviour) : Prop :=
  c.keypoints = [z0, z0 + 2, z0] ∧ c._journeyLength = 2 ∧ c._speed = 1 ∧
    c._startTime = startTime ∧ c.RotationSpeed = v ∧
    (c.keyframe = 0 ∨ c.keyframe = 1 ∨ c.keyframe = 2)

/-- The value of `keyframe` after the wrap check of lines 51-54, on an
activated component. -/
def wrapped (c : RotatingBehaviour) : Int := if c.keyframe = 2 then 0 else c.keyframe

/-! ## Binary32 arithmetic

The exact model above reads `float` as `ℚ`. The model below rounds: every
float operation gives the binary32 value nearest the exact result, a tie going
to the even significand, with subnormals, overflow to an infinity, and NaN.
The two zeros are not told apart; where a division by zero needs the sign of
the zero it is taken as `+0`, which is the sign of every zero divisor this code
can produce (`std::abs` of a float, and an exact sum that cancels). -/

/-- `2 ^ e` for an integer exponent. -/
def pow2 (e : Int) : ℚ :=
  if 0 ≤ e then ((2 ^ e.toNat : ℕ) : ℚ) else 1 / ((2 ^ (-e).toNat : ℕ) : ℚ)

/-- The exponent `e` of the binade `[2^e, 2^(e+1))` that holds `x >= 0`, searched
upwards from `e`; with `fuel = 254` and `e = -126` the result is `-126` for
subnormals and `128` past the largest binade. -/
def binade (x : ℚ) : Nat → Int → Int
  | 0, e => e
  | fuel + 1, e => if x < pow2 (e + 1) then e else binade x fuel (e + 1)

/-- The nearest integer, a tie going to the even one. -/
def roundHalfEven (x : ℚ) : Int :=
  if x - ⌊x⌋ < 1 / 2 then ⌊x⌋
  else if 1 / 2 < x - ⌊x⌋ then ⌊x⌋ + 1
  else if ⌊x⌋ % 2 = 0 then ⌊x⌋ else ⌊x⌋ + 1

/-- The multiple of the unit in the last place (24-bit significand, least
exponent -126) nearest `x`, a tie going to the even multiple. -/
def round32 (x : ℚ) : ℚ :=
  roundHalfEven (x / pow2 (binade |x| 254 (-126) - 23)) * pow2 (binade |x| 254 (-126) - 23)

/-- A binary32 value: a finite number, an infinity or NaN. -/
inductive F32 where
  | finite (q : ℚ)
  | posInf
  | negInf
  | nan
deriving DecidableEq

/-- The binary32 result of an operation whose exact result is `x`. -/
def F32.ofRat (x : ℚ) : F32 :=
  if pow2 128 ≤ round32 x then .posInf
  else if round32 x ≤ -pow2 128 then .negInf
  else .finite (round32 x)

/-- The infinity of the sign of `s`, NaN for `s = 0`. -/
def F32.signedInf (s : ℚ) : F32 :=
  if 0 < s then .posInf else if s < 0 then .negInf else .nan

/-- The sign of a value as `1`, `0` or `-1` (`0` for NaN, where it is not used). -/
def F32.sgn : F32 → ℚ
  | .finite q => if 0 < q then 1 else if q < 0 then -1 else 0
  | .posInf => 1
  | .negInf => -1
  | .nan => 0

/-- Float negation. -/
def F32.neg : F32 → F32
  | .finite q => .finite (-q)
  | .posInf => .negInf
  | .negInf => .posInf
  | .nan => .nan

/-- Float addition. -/
def F32.add : F32 → F32 → F32
  | .finite a, .finite b => .ofRat (a + b)
  | .nan, _ => .nan
  | _, .nan => .nan
  | .posInf, .negInf => .nan
  | .negInf, .posInf => .nan
  | .posInf, _ => .posInf
  | _, .posInf => .posInf
  | .negInf, _ => .negInf
  | _, .negInf => .negInf

/-- Float subtraction. -/
def F32.sub (a b : F32) : F32 := F32.add a (F32.neg b)

/-- Float multiplication. -/
def F32.mul : F32 → F32 → F32
  | .finite a, .finite b => .ofRat (a * b)
  | .nan, _ => .nan
  | _, .nan => .nan
  | a, b => F32.signedInf (a.sgn * b.sgn)

/-- Float division. -/
def F32.div : F32 → F32 → F32
  | .finite a, .finite b => if b = 0 then F32.signedInf a else .ofRat (a / b)
  | .nan, _ => .nan
  | _, .nan => .nan
  | .finite _, _ => .finite 0
  | .posInf, .finite b => if 0 ≤ b then .posInf else .negInf
  | .negInf, .finite b => if 0 ≤ b then .negInf else .posInf
  | _, _ => .nan

/-- `std::abs` on a float. -/
def F32.abs : F32 → F32
  | .finite q => .finite |q|
  | .posInf => .posInf
  | .negInf => .posInf
  | .nan => .nan

/-- The float comparison `a >= b`; false when either side is NaN. -/
def F32.ge : F32 → F32 → Bool
  | .finite a, .finite b => decide (b ≤ a)
  | .nan, _ => false
  | _, .nan => false
  | .posInf, _ => true
  | _, .negInf => true
  | _, _ => false

instance : Add F32 := ⟨F32.add⟩

instance : Sub F32 := ⟨F32.sub⟩

instance : Mul F32 := ⟨F32.mul⟩

instance : Div F32 := ⟨F32.div⟩

/-- A `glm::vec3` of binary32 components. -/
structure Vec3f where
  x : F32
  y : F32
  z : F32
deriving DecidableEq

/-- Componentwise float sum, `glm::vec3 + glm::vec3`. -/
def Vec3f.add (a b : Vec3f) : Vec3f := ⟨a.x + b.x, a.y + b.y, a.z + b.z⟩

/-- Float product with a scalar on the right, `glm::vec3 * float`. -/
def Vec3f.scale (a : Vec3f) (s : F32) : Vec3f := ⟨a.x * s, a.y * s, a.z * s⟩

instance : Add Vec3f := ⟨Vec3f.add⟩

instance : HMul Vec3f F32 Vec3f := ⟨Vec3f.scale⟩

/-- Modelled from the spec: the owning `GameObject` with a binary32 transform;
the getters return exactly what the setters stored. -/
structure GameObject32 where
  position : Vec3f
  rotationEuler : Vec3f
deriving DecidableEq

/-- Reads the owner's position. -/
def GameObject32.GetPosition (g : GameObject32) : Vec3f := g.position

/-- Stores the owner's position. -/
def GameObject32.SetPostion (g : GameObject32) (p : Vec3f) : GameObject32 :=
  { g with position := p }

/-- Reads the owner's Euler rotation. -/
def GameObject32.GetRotationEuler (g : GameObject32) : Vec3f := g.rotationEuler

/-- Stores the owner's Euler rotation. -/
def GameObject32.SetRotation (g : GameObject32) (r : Vec3f) : GameObject32 :=
  { g with rotationEuler := r }

/-- Fields of `class RotatingBehaviour`, the floats as binary32 values. -/
structure RotatingBehaviour32 where
  RotationSpeed : Vec3f
  _segmentIndex : Nat
  _timer : F32
  _TravelTime : F32
  _startTime : F32
  _timeStored : F32
  _speed : F32
  keypoints : List F32
  _journeyLength : F32
  keyframe : Int
deriving DecidableEq

/-- `RotatingBehaviour::RotatingBehaviour(float startTime)` (lines 8-19), with the
in-class initialiser `RotationSpeed = glm::vec3(0,0,30)` of the header. -/
def RotatingBehaviour32.construct (startTime : F32) : RotatingBehaviour32 :=
  { RotationSpeed := ⟨.finite 0, .finite 0, .finite 30⟩
    _segmentIndex := 0
    _TravelTime := .finite 5
    _startTime := startTime
    _timeStored := .finite 0
    keyframe := 0
    _speed := .finite 1
    _journeyLength := .finite 0
    _timer := .finite 1
    keypoints := [] }

/-- A freshly constructed binary32 component whose public `RotationSpeed` has
been set. -/
def fresh32 (startTime : F32) (rotationSpeed : Vec3f) : RotatingBehaviour32 :=
  { RotatingBehaviour32.construct startTime with RotationSpeed := rotationSpeed }

/-- `keypoints.size() - 1`, computed in `size_t`. -/
def lastIndex32 (keypoints : List F32) : Int := toSizeT ((keypoints.length : Int) - 1)

/-- `keypoints[i]` for an `int` index: the value, or a fault outside the vector. -/
def index32 (keypoints : List F32) (i : Int) : Option F32 :=
  if 0 ≤ i then keypoints[i.toNat]? else none

/-- `RotatingBehaviour::Lerp` (lines 89-93) at `T = float`, in binary32. -/
def Lerp32 (p0 p1 t : F32) : F32 := (F32.finite 1 - t) * p0 + t * p1

/-- `RotatingBehaviour::Awake` (lines 32-38) in binary32. -/
def Awake32 (self : RotatingBehaviour32) (obj : GameObject32) : Option RotatingBehaviour32 := do
  let keypoints := self.keypoints ++ [obj.GetPosition.z]
  let keypoints := keypoints ++ [obj.GetPosition.z + F32.finite 2]
  let keypoints := keypoints ++ [obj.GetPosition.z]
  let a ← index32 keypoints self.keyframe
  let b ← index32 keypoints (self.keyframe + 1)
  pure { self with keypoints := keypoints, _journeyLength := F32.abs (a - b) }

/-- What one call of `Update32` leaves behind: the component, the owner, and
the values of the locals the call computed. -/
structure TickRecord32 where
  /-- the local `fractionOfJourney` (line 49) -/
  fractionOfJourney : F32
  /-- the value of `keyframe` at the two reads of line 62 -/
  readIndex : Int
  /-- the local `SlowInOut` (line 58) -/
  eased : F32
  /-- whether the branch of lines 64-68 was taken -/
  completed : Bool
  /-- the component after the call -/
  self : RotatingBehaviour32
  /-- the owner after the call -/
  obj : GameObject32
deriving DecidableEq

/-- `RotatingBehaviour::Update` (lines 40-70) in binary32. -/
def Update32 (self : RotatingBehaviour32) (obj : GameObject32) (deltaTime : F32) :
    Option TickRecord32 := do
  let obj := obj.SetRotation (obj.GetRotationEuler + self.RotationSpeed * deltaTime)
  let _timer := self._timer + deltaTime
  let distCovered := (_timer - self._startTime - self._timeStored) * self._speed
  let fractionOfJourney := distCovered / self._journeyLength
  let keyframe : Int :=
    if toSizeT self.keyframe = lastIndex32 self.keypoints then 0 else self.keyframe
  let sqt := fractionOfJourney * fractionOfJourney
  let slowInOut := sqt / (F32.finite 2 * (sqt - fractionOfJourney) + F32.finite 1)
  let currentPosition := obj.GetPosition
  let p0 ← index32 self.keypoints keyframe
  let p1 ← index32 self.keypoints (keyframe + 1)
  let obj := obj.SetPostion ⟨currentPosition.x, currentPosition.y, Lerp32 p0 p1 slowInOut⟩
  if F32.ge fractionOfJourney (F32.finite 1) = true ∧
      toSizeT keyframe ≠ lastIndex32 self.keypoints then
    pure { fractionOfJourney := fractionOfJourney, readIndex := keyframe, eased := slowInOut,
           completed := true,
           self := { self with _timer := _timer, _timeStored := _timer - self._startTime,
                               keyframe := keyframe + 1 },
           obj := obj }
  else
    pure { fractionOfJourney := fractionOfJourney, readIndex := keyframe, eased := slowInOut,
           completed := false,
           self := { self with _timer := _timer, keyframe := keyframe },
           obj := obj }

/-- The records of successive `Update32` calls, one per call; a faulting call
ends the list. -/
def ticks32 (self : RotatingBehaviour32) (obj : GameObject32) : List F32 → List TickRecord32
  | [] => []
  | deltaTime :: rest =>
    match Update32 self obj deltaTime with
    | none => []
    | some r => r :: ticks32 r.self r.obj rest

/-- A freshly constructed binary32 component with its rotation speed set, one
`Awake32`, then successive `Update32`s: the records of the updates. -/
def lifetime32 (startTime : F32) (v : Vec3f) (obj : GameObject32) (ds : List F32) :
    List TickRecord32 :=
  match Awake32 (fresh32 startTime v) obj with
  | none => []
  | some c => ticks32 c obj ds

/-- The component and owner after successive `Update32` calls, or a fault. -/
def run32 (self : RotatingBehaviour32) (obj : GameObject32) :
    List F32 → Option (RotatingBehaviour32 × GameObject32)
  | [] => some (self, obj)
  | deltaTime :: rest =>
    match Update32 self obj deltaTime with
    | none => none
    | some r => run32 r.self r.obj rest

/-- A freshly constructed binary32 component with its rotation speed set, one
`Awake32`, then successive `Update32`s: the component and owner at the end, or
a fault. -/
def lifetimeEnd32 (startTime : F32) (v : Vec3f) (obj : GameObject32) (ds : List F32) :
    Option (RotatingBehaviour32 × GameObject32) :=
  match Awake32 (fresh32 startTime v) obj with
  | none => none
  | some c => run32 c obj ds

/-- The float operation whose exact result is `x` is exact: `x` is a binary32
value, and rounding leaves it as it is. -/
def Exact (x : ℚ) : Prop := F32.ofRat x = F32.finite x

/-- Every float operation of the rotation integration of one axis is exact:
each product `v * d` and each sum `r + v * d`, from rotation `r` on. -/
def ExactRotation (v : ℚ) : ℚ → List ℚ → Prop
  | _, [] => True
  | r, d :: ds => Exact (v * d) ∧ Exact (r + v * d) ∧ ExactRotation v (r + v * d) ds

/-- Every float operation on the way from `deltaTime` to `fractionOfJourney` is
exact (lines 43-49 and 66, with `_speed = 1` and `_journeyLength = 2`), from
`_timer = timer` and `_timeStored = stored` on. -/
def ExactClock (startTime : ℚ) : ℚ → ℚ → List ℚ → Prop
  | _, _, [] => True
  | timer, stored, d :: ds =>
    Exact (timer + d) ∧ Exact (timer + d - startTime) ∧
      Exact (timer + d - startTime - stored) ∧
      Exact ((timer + d - startTime - stored) / 2) ∧
      ExactClock startTime (timer + d)
        (if 2 ≤ timer + d - startTime - stored then timer + d - startTime else stored) ds

/-- What holds of the binary32 component from `Awake32` on, whatever the floats
do: three keypoints, the configured rotation speed, and a `keyframe` among 0, 1
and 2. -/
def Activated32 (v : Vec3f) (c : RotatingBehaviour32) : Prop :=
  c.keypoints.length = 3 ∧ c.RotationSpeed = v ∧
    (c.keyframe = 0 ∨ c.keyframe = 1 ∨ c.keyframe = 2)

/-- The clock fields of a binary32 component whose floats have so far been
exact: start time, timer, stored time, speed 1 and journey length 2. -/
def Clocked (startTime timer stored : ℚ) (c : RotatingBehaviour32) : Prop :=
  c._startTime = .finite startTime ∧ c._timer = .finite timer ∧
    c._timeStored = .finite stored ∧ c._speed = .finite 1 ∧ c._journeyLength = .finite 2

/-- The value of `keyframe` after the wrap check of lines 51-54, on an
activated binary32 component. -/
def wrapped32 (c : RotatingBehaviour32) : Int := if c.keyframe = 2 then 0 else c.keyframe

/-! ## Basic facts -/

theorem constructDefault_eq : RotatingBehaviour.constructDefault = RotatingBehaviour.construct 0 :=
  rfl

theorem fresh_construct (startTime : ℚ) :
    fresh startTime ⟨0, 0, 30⟩ = RotatingBehaviour.construct startTime := rfl

theorem fresh_constructDefault : fresh 0 ⟨0, 0, 30⟩ = RotatingBehaviour.constructDefault := rfl

theorem Vec3.add_def (a b : Vec3) : a + b = ⟨a.x + b.x, a.y + b.y, a.z + b.z⟩ := rfl

theorem Vec3.mul_def (a : Vec3) (s : ℚ) : a * s = ⟨a.x * s, a.y * s, a.z * s⟩ := rfl

theorem toSizeT_zero : toSizeT 0 = 0 := by decide

theorem toSizeT_one : toSizeT 1 = 1 := by decide

theorem toSizeT_two : toSizeT 2 = 2 := by decide

theorem lastIndex_three (a b c : ℚ) : lastIndex [a, b, c] = 2 := by
  simp [lastIndex, toSizeT]

theorem index_zero (a : ℚ) (l : List ℚ) : index (a :: l) 0 = some a := by
  simp [index]

theorem index_one (a b : ℚ) (l : List ℚ) : index (a :: b :: l) 1 = some b := by
  simp [index]

theorem index_two (a b c : ℚ) (l : List ℚ) : index (a :: b :: c :: l) 2 = some c := by
  simp [index]

/-- The divisor of the ease is a sum of two squares, and positive. -/
theorem SlowInOutDenominator_pos (f : ℚ) : 0 < SlowInOutDenominator f := by
  unfold SlowInOutDenominator sqt
  nlinarith [sq_nonneg (2 * f - 1)]

theorem SlowInOut_eq (f : ℚ) : SlowInOut f = some (sqt f / SlowInOutDenominator f) := by
  simp [SlowInOut, fdiv, (SlowInOutDenominator_pos f).ne.symm]

theorem ease_nonneg (f : ℚ) : 0 ≤ sqt f / SlowInOutDenominator f :=
  div_nonneg (mul_self_nonneg f) (SlowInOutDenominator_pos f).le

theorem ease_le_one (f : ℚ) : sqt f / SlowInOutDenominator f ≤ 1 := by
  rw [div_le_one (SlowInOutDenominator_pos f)]
  unfold SlowInOutDenominator sqt
  nlinarith [sq_nonneg (f - 1)]

/-- With the parameter in `[0, 1]`, `Lerp` stays between `z` and `z + 2`. -/
theorem Lerp_up_mem (z t : ℚ) (h0 : 0 ≤ t) (h1 : t ≤ 1) :
    z ≤ Lerp z (z + 2) t ∧ Lerp z (z + 2) t ≤ z + 2 := by
  unfold Lerp
  constructor <;> nlinarith

theorem Lerp_down_mem (z t : ℚ) (h0 : 0 ≤ t) (h1 : t ≤ 1) :
    z ≤ Lerp (z + 2) z t ∧ Lerp (z + 2) z t ≤ z + 2 := by
  unfold Lerp
  constructor <;> nlinarith

theorem Awake_fresh (startTime : ℚ) (v : Vec3) (obj : GameObject) :
    Awake (fresh startTime v) obj =
      some { fresh startTime v with
              keypoints := [obj.position.z, obj.position.z + 2, obj.position.z]
              _journeyLength := 2 } := by
  simp [Awake, fresh, RotatingBehaviour.construct, GameObject.GetPosition, index]

/-- One `Update` on an activated component: it does not fault, and every part
of its record is determined. -/
theorem Update_activated {startTime z0 : ℚ} {v : Vec3} {c : RotatingBehaviour}
    (h : Activated startTime z0 v c) (g : GameObject) (d : ℚ) :
    ∃ r, Update c g d = some r ∧ Activated startTime z0 v r.self ∧
      r.fractionOfJourney = (c._timer + d - startTime - c._timeStored) / 2 ∧
      r.readIndex = wrapped c ∧
      r.completed = decide (1 ≤ r.fractionOfJourney) ∧
      r.self._timer = c._timer + d ∧
      r.self._timeStored
        = (if 1 ≤ r.fractionOfJourney then c._timer + d - startTime else c._timeStored) ∧
      r.self.keyframe = wrapped c + (if 1 ≤ r.fractionOfJourney then 1 else 0) ∧
      r.obj.rotationEuler = g.rotationEuler + v * d ∧
      r.obj.position.x = g.position.x ∧ r.obj.position.y = g.position.y ∧
      z0 ≤ r.obj.position.z ∧ r.obj.position.z ≤ z0 + 2 := by
  obtain ⟨hk, hj, hs, hst, hv, hkf⟩ := h
  have hb := Lerp_up_mem z0 _ (ease_nonneg ((c._timer + d - startTime - c._timeStored) / 2))
    (ease_le_one _)
  have hb2 := Lerp_down_mem z0 _ (ease_nonneg ((c._timer + d - startTime - c._timeStored) / 2))
    (ease_le_one _)
  by_cases hf : 1 ≤ (c._timer + d - startTime - c._timeStored) / 2
  · rcases hkf with h0 | h0 | h0
    all_goals
      simp [Update, Activated, wrapped, hk, hj, hs, hst, hv, h0, hf, fdiv, SlowInOut_eq,
        lastIndex_three, toSizeT_zero, toSizeT_one, toSizeT_two, index_zero, index_one,
        index_two, GameObject.SetPostion, GameObject.SetRotation, GameObject.GetPosition,
        GameObject.GetRotationEuler, hb, hb2]
  · rcases hkf with h0 | h0 | h0
    all_goals
      simp [Update, Activated, wrapped, hk, hj, hs, hst, hv, h0, hf, fdiv, SlowInOut_eq,
        lastIndex_three, toSizeT_zero, toSizeT_one, toSizeT_two, index_zero, index_one,
        index_two, GameObject.SetPostion, GameObject.SetRotation, GameObject.GetPosition,
        GameObject.GetRotationEuler, hb, hb2]

theorem Activated_Awake (startTime : ℚ) (v : Vec3) (obj : GameObject) :
    ∃ c, Awake (fresh startTime v) obj = some c ∧ Activated startTime obj.position.z v c ∧
      c.keyframe = 0 ∧ c._timer = 1 ∧ c._timeStored = 0 :=
  ⟨_, Awake_fresh startTime v obj, by
    simp [Activated, fresh, RotatingBehaviour.construct]⟩

/-- No `Update` of an activated component faults: there is a record per call. -/
theorem ticks_length {startTime z0 : ℚ} {v : Vec3} (ds : List ℚ) :
    ∀ (c : RotatingBehaviour) (g : GameObject), Activated startTime z0 v c →
      (ticks c g ds).length = ds.length := by
  induction ds with
  | nil => intro c g _; rfl
  | cons d ds ih =>
    intro c g h
    obtain ⟨r, hr, hact, -⟩ := Update_activated h g d
    simp [ticks, hr, ih r.self r.obj hact]

/-- Every record of a run from an activated component: the component stays
activated, the reads are at index 0 or 1, and the z written is in range. -/
theorem ticks_forall {startTime z0 : ℚ} {v : Vec3} (ds : List ℚ) :
    ∀ (c : RotatingBehaviour) (g : GameObject), Activated startTime z0 v c →
      ∀ r ∈ ticks c g ds, Activated startTime z0 v r.self ∧
        (r.readIndex = 0 ∨ r.readIndex = 1) ∧
        r.self.keyframe = r.readIndex + (if r.completed then 1 else 0) ∧
        z0 ≤ r.obj.position.z ∧ r.obj.position.z ≤ z0 + 2 := by
  induction ds with
  | nil => intro c g _ r hr; simp [ticks] at hr
  | cons d ds ih =>
    intro c g h r hr
    obtain ⟨r0, hr0, hact, -, hidx, hc, -, -, hkf, -, -, -, hz1, hz2⟩ := Update_activated h g d
    simp only [ticks, hr0, List.mem_cons] at hr
    rcases hr with rfl | hr
    · refine ⟨hact, ?_, ?_, hz1, hz2⟩
      · rw [hidx]
        unfold wrapped
        rcases h.2.2.2.2.2 with h0 | h0 | h0 <;> simp [h0]
      · rw [hkf, hidx, hc]
        simp
    · exact ih r0.self r0.obj hact r hr

/-- The final state of a run is the state of its last record. -/
theorem run_eq_some {startTime z0 : ℚ} {v : Vec3} (ds : List ℚ) :
    ∀ (c : RotatingBehaviour) (g : GameObject), Activated startTime z0 v c →
      ∃ c1 g1, run c g ds = some (c1, g1) ∧ Activated startTime z0 v c1 ∧
        g1.rotationEuler = g.rotationEuler + v * ds.sum := by
  induction ds with
  | nil =>
    intro c g h
    refine ⟨c, g, rfl, h, ?_⟩
    show g.rotationEuler = Vec3.add g.rotationEuler (Vec3.scale v 0)
    simp [Vec3.add, Vec3.scale]
  | cons d ds ih =>
    intro c g h
    obtain ⟨r0, hr0, hact, -, -, -, -, -, -, hrot, -⟩ := Update_activated h g d
    obtain ⟨c1, g1, hrun, hact1, hrot1⟩ := ih r0.self r0.obj hact
    refine ⟨c1, g1, by simp [run, hr0, hrun], hact1, ?_⟩
    rw [hrot1, hrot]
    show Vec3.add (Vec3.add g.rotationEuler (Vec3.scale v d)) (Vec3.scale v ds.sum)
      = Vec3.add g.rotationEuler (Vec3.scale v (d :: ds).sum)
    simp only [Vec3.add, Vec3.scale, List.sum_cons, Vec3.mk.injEq]
    refine ⟨?_, ?_, ?_⟩ <;> ring

theorem wrapped_of_activated {startTime z0 : ℚ} {v : Vec3} {c : RotatingBehaviour}
    (h : Activated startTime z0 v c) : wrapped c = 0 ∨ wrapped c = 1 := by
  unfold wrapped
  rcases h.2.2.2.2.2 with h0 | h0 | h0 <;> simp [h0]

/-- From an activated component, when the first tick that sees
`fractionOfJourney >= 1` is tick `m`: that tick ends one past the wrapped
`keyframe` it started the run with, with `_timeStored` brought up to date, and
what follows is a run from its state. -/
theorem ticks_first_reachedEnd {startTime z0 : ℚ} {v : Vec3} (m : ℕ) :
    ∀ (ds : List ℚ) (c : RotatingBehaviour) (g : GameObject) (rest : List Bool),
      Activated startTime z0 v c →
      (ticks c g ds).map reachedEnd = List.replicate m false ++ true :: rest →
      ∃ r ds1, (ticks c g ds)[m]? = some r ∧ r.self.keyframe = wrapped c + 1 ∧
        r.self._timeStored = r.self._timer - startTime ∧ Activated startTime z0 v r.self ∧
        (ticks c g ds).drop (m + 1) = ticks r.self r.obj ds1 := by
  induction m with
  | zero =>
    intro ds c g rest h hflags
    cases ds with
    | nil => simp [ticks] at hflags
    | cons d ds =>
      obtain ⟨r, hr, hact, -, -, -, ht, hts, hkf, -⟩ := Update_activated h g d
      simp only [ticks, hr, List.map_cons, List.replicate_zero, List.nil_append,
        List.cons.injEq, reachedEnd, decide_eq_true_eq] at hflags
      refine ⟨r, ds, by simp [ticks, hr], ?_, ?_, hact, by simp [ticks, hr]⟩
      · simpa [hflags.1] using hkf
      · rw [hts, ht]; simp [hflags.1]
  | succ m ih =>
    intro ds c g rest h hflags
    cases ds with
    | nil => simp [ticks] at hflags
    | cons d ds =>
      obtain ⟨r, hr, hact, -, -, -, -, -, hkf, -⟩ := Update_activated h g d
      simp only [ticks, hr, List.map_cons, List.replicate_succ, List.cons_append,
        List.cons.injEq, reachedEnd, decide_eq_false_iff_not] at hflags
      have hk : r.self.keyframe = wrapped c := by simpa [hflags.1] using hkf
      have hw : wrapped r.self = wrapped c := by
        unfold wrapped at hk ⊢
        rw [hk]
        rcases h.2.2.2.2.2 with h0 | h0 | h0 <;> simp [h0]
      obtain ⟨r1, ds1, hget, hk1, hts1, hact1, hdrop⟩ := ih ds r.self r.obj rest hact hflags.2
      refine ⟨r1, ds1, by simpa [ticks, hr] using hget, by rw [hk1, hw], hts1, hact1, ?_⟩
      simpa [ticks, hr] using hdrop

/-- From an activated component the ticks that complete a segment are those
the schedule names, with the time already elapsed in the current segment being
`_timer - _startTime - _timeStored`. -/
theorem ticks_completed {startTime z0 : ℚ} {v : Vec3} (ds : List ℚ) :
    ∀ (c : RotatingBehaviour) (g : GameObject), Activated startTime z0 v c →
      (ticks c g ds).map (fun r => r.completed)
        = completionSchedule (c._timer - startTime - c._timeStored) ds := by
  induction ds with
  | nil => intro c g _; rfl
  | cons d ds ih =>
    intro c g h
    obtain ⟨r, hr, hact, hf, -, hc, ht, hts, -⟩ := Update_activated h g d
    have hiff : 1 ≤ r.fractionOfJourney ↔ 2 ≤ c._timer - startTime - c._timeStored + d := by
      rw [hf, le_div_iff₀ (by norm_num : (0 : ℚ) < 2)]
      constructor <;> intro h1 <;> linarith
    simp only [ticks, hr, List.map_cons, completionSchedule, ih r.self r.obj hact, hc, ht, hts]
    by_cases h2 : 2 ≤ c._timer - startTime - c._timeStored + d
    · simp [h2, hiff.2 h2]
    · have h1 : ¬ 1 ≤ r.fractionOfJourney := fun h1 => h2 (hiff.1 h1)
      simp only [h2, h1, if_false, decide_False]
      congr 2
      ring

theorem drop_replicate_append_cons {α : Type} (m : ℕ) (a b : α) (l : List α) :
    (List.replicate m a ++ b :: l).drop (m + 1) = l := by
  induction m with
  | zero => rfl
  | succ m ih => simpa [List.replicate_succ] using ih

/-- The first record of a run from an activated component reads at the wrapped
`keyframe`, and ends one past it exactly when it saw `fractionOfJourney >= 1`. -/
theorem ticks_head {startTime z0 : ℚ} {v : Vec3} {c : RotatingBehaviour}
    (h : Activated startTime z0 v c) (g : GameObject) (ds : List ℚ) (r : TickRecord)
    (hr : (ticks c g ds)[0]? = some r) :
    r.readIndex = wrapped c ∧
      r.self.keyframe = wrapped c + (if 1 ≤ r.fractionOfJourney then 1 else 0) := by
  cases ds with
  | nil => simp [ticks] at hr
  | cons d ds =>
    obtain ⟨r0, hr0, -, -, hidx, -, -, -, hkf, -⟩ := Update_activated h g d
    simp only [ticks, hr0, List.getElem?_cons_zero, Option.some.injEq] at hr
    subst hr
    exact ⟨hidx, hkf⟩

/-- What any `Update` that returns has done with its locals: the keypoints are
untouched, the eased value is the ease of the fraction, and the z written is
`Lerp` of the two keypoints read, at the eased value. -/
theorem Update_locals {c : RotatingBehaviour} {g : GameObject} {d : ℚ} {r : TickRecord}
    (h : Update c g d = some r) :
    r.self.keypoints = c.keypoints ∧ SlowInOut r.fractionOfJourney = some r.eased ∧
      ∃ p0 p1, index c.keypoints r.readIndex = some p0 ∧
        index c.keypoints (r.readIndex + 1) = some p1 ∧
        r.obj.position.z = Lerp p0 p1 r.eased := by
  simp only [Update, Option.bind_eq_bind, Option.bind_eq_some, Option.pure_def] at h
  obtain ⟨f, -, e, he, p0, hp0, p1, hp1, h⟩ := h
  generalize (if toSizeT c.keyframe = lastIndex c.keypoints then 0 else c.keyframe) = k
    at h hp0 hp1
  split at h <;> simp only [Option.some.injEq] at h <;> subst h <;>
    exact ⟨rfl, he, p0, p1, hp0, hp1, rfl⟩

/-- Every record of a run, from any component: the eased value is the ease of
the fraction, and the z written is `Lerp` of the two keypoints read, at the
eased value. -/
theorem ticks_locals (ds : List ℚ) :
    ∀ (c : RotatingBehaviour) (g : GameObject), ∀ r ∈ ticks c g ds,
      SlowInOut r.fractionOfJourney = some r.eased ∧
        ∃ p0 p1, index r.self.keypoints r.readIndex = some p0 ∧
          index r.self.keypoints (r.readIndex + 1) = some p1 ∧
          r.obj.position.z = Lerp p0 p1 r.eased := by
  induction ds with
  | nil => intro c g r hr; simp [ticks] at hr
  | cons d ds ih =>
    intro c g r hr
    cases hu : Update c g d with
    | none => simp [ticks, hu] at hr
    | some r0 =>
      simp only [ticks, hu, List.mem_cons] at hr
      rcases hr with rfl | hr
      · obtain ⟨hk, he, hl⟩ := Update_locals hu
        rw [hk]
        exact ⟨he, hl⟩
      · exact ih r0.self r0.obj r hr

/-! ## The claims -/

/-- C1: after `Awake` on an owner whose z-coordinate is `z0`, for every start
time, rotation speed and sequence of `deltaTime`s (non-negative or not), no
`Update` faults and the z-coordinate each `Update` writes to the owner lies in
`[z0, z0 + 2]`. -/
theorem position_z_within_keyframe_range (startTime : ℚ) (v : Vec3) (obj : GameObject)
    (ds : List ℚ) :
    (lifetime startTime v obj ds).length = ds.length ∧
      ∀ r ∈ lifetime startTime v obj ds,
        obj.position.z ≤ r.obj.position.z ∧ r.obj.position.z ≤ obj.position.z + 2 := by
  obtain ⟨c, hc, hact, -⟩ := Activated_Awake startTime v obj
  simp only [lifetime, hc]
  exact ⟨ticks_length ds c obj hact, fun r hr => (ticks_forall ds c obj hact r hr).2.2.2⟩

/-- C1 at the spec's scenario: owner at `(0,0,5)`, rotation speed `(0,0,30)`,
start time 0, `deltaTime` 1 five times; the z written is 7, 6, 5, 6, 7 in
turn, every one within `[5, 7]`. -/
theorem position_z_within_keyframe_range_witness :
    (lifetime 0 ⟨0, 0, 30⟩ ⟨⟨0, 0, 5⟩, ⟨0, 0, 0⟩⟩ [1, 1, 1, 1, 1]).map
        (fun r => r.obj.position.z) = [7, 6, 5, 6, 7] ∧
      (lifetime 0 ⟨0, 0, 30⟩ ⟨⟨0, 0, 5⟩, ⟨0, 0, 0⟩⟩ [1, 1, 1, 1, 1]).length = 5 ∧
      ∀ r ∈ lifetime 0 ⟨0, 0, 30⟩ ⟨⟨0, 0, 5⟩, ⟨0, 0, 0⟩⟩ [1, 1, 1, 1, 1],
        5 ≤ r.obj.position.z ∧ r.obj.position.z ≤ 7 := by
  refine ⟨?_, ?_⟩
  · simp only [lifetime, Awake_fresh]
    norm_num [ticks, Update, fresh, RotatingBehaviour.construct, fdiv, SlowInOut, sqt,
      SlowInOutDenominator, lastIndex, toSizeT, index_zero, index_one, index_two, GameObject.SetPostion,
      GameObject.SetRotation, GameObject.GetPosition, GameObject.GetRotationEuler, Lerp]
  · have h :=
      position_z_within_keyframe_range 0 ⟨0, 0, 30⟩ ⟨⟨0, 0, 5⟩, ⟨0, 0, 0⟩⟩ [1, 1, 1, 1, 1]
    norm_num at h
    exact h

/-- In exact arithmetic: for every initial Euler rotation of the owner, every
rotation speed `v` and every sequence of `deltaTime`s, the run of `Update`s on
the activated
component ends without fault and the owner's Euler rotation is then the initial
one plus `v` times the sum of the `deltaTime`s, componentwise. -/
theorem rotation_after_ticks (startTime : ℚ) (v : Vec3) (obj : GameObject) (ds : List ℚ) :
    ∃ c g, lifetimeEnd startTime v obj ds = some (c, g) ∧
      g.rotationEuler.x = obj.rotationEuler.x + v.x * ds.sum ∧
      g.rotationEuler.y = obj.rotationEuler.y + v.y * ds.sum ∧
      g.rotationEuler.z = obj.rotationEuler.z + v.z * ds.sum := by
  obtain ⟨c, hc, hact, -⟩ := Activated_Awake startTime v obj
  obtain ⟨c1, g1, hrun, -, hrot⟩ := run_eq_some ds c obj hact
  refine ⟨c1, g1, by simp only [lifetimeEnd, hc, hrun], ?_⟩
  rw [hrot]
  exact ⟨rfl, rfl, rfl⟩

/-- In exact arithmetic, at the spec's scenario: rotation speed `(0,0,30)` and
`deltaTime` 1 add
exactly 30 to `rotation.z` on each tick. -/
theorem rotation_after_ticks_witness :
    (lifetime 0 ⟨0, 0, 30⟩ ⟨⟨0, 0, 5⟩, ⟨0, 0, 0⟩⟩ [1, 1, 1, 1]).map
        (fun r => r.obj.rotationEuler.z) = [30, 60, 90, 120] ∧
      ∃ c g, lifetimeEnd 0 ⟨0, 0, 30⟩ ⟨⟨0, 0, 5⟩, ⟨0, 0, 0⟩⟩ [1, 1, 1, 1] = some (c, g) ∧
        g.rotationEuler.z = 120 := by
  refine ⟨?_, ?_⟩
  · simp only [lifetime, Awake_fresh]
    norm_num [ticks, Update, fresh, RotatingBehaviour.construct, fdiv, SlowInOut, sqt,
      SlowInOutDenominator, lastIndex, toSizeT, index_zero, index_one, index_two, GameObject.SetPostion,
      GameObject.SetRotation, GameObject.GetPosition, GameObject.GetRotationEuler, Lerp,
      Vec3.add_def, Vec3.mul_def]
  · obtain ⟨c, g, h, -, -, hz⟩ :=
      rotation_after_ticks 0 ⟨0, 0, 30⟩ ⟨⟨0, 0, 5⟩, ⟨0, 0, 0⟩⟩ [1, 1, 1, 1]
    exact ⟨c, g, h, by rw [hz]; norm_num⟩

/-- In exact arithmetic: for every owner z-coordinate `z0`, `Awake` called once
on a freshly
constructed component succeeds and leaves `keypoints = [z0, z0 + 2, z0]` and
`_journeyLength = 2`, which is not zero. -/
theorem Awake_keypoints_journeyLength (startTime : ℚ) (v : Vec3) (obj : GameObject) :
    ∃ c, Awake (fresh startTime v) obj = some c ∧
      c.keypoints = [obj.position.z, obj.position.z + 2, obj.position.z] ∧
      c._journeyLength = 2 ∧ c._journeyLength ≠ 0 := by
  refine ⟨_, Awake_fresh startTime v obj, rfl, rfl, ?_⟩
  show (2 : ℚ) ≠ 0
  norm_num

/-- C4: on every `Update` of a run that starts with a freshly constructed
component and one `Awake`, the vector holds three keypoints and the index at
which `keypoints[keyframe]` and `keypoints[keyframe + 1]` are read satisfies
`0 <= keyframe` and `keyframe + 1 <= 2`; no `Update` faults. -/
theorem keypoint_reads_in_bounds (startTime : ℚ) (v : Vec3) (obj : GameObject) (ds : List ℚ) :
    (lifetime startTime v obj ds).length = ds.length ∧
      ∀ r ∈ lifetime startTime v obj ds,
        r.self.keypoints.length = 3 ∧ 0 ≤ r.readIndex ∧ r.readIndex + 1 ≤ 2 := by
  obtain ⟨c, hc, hact, -⟩ := Activated_Awake startTime v obj
  simp only [lifetime, hc]
  refine ⟨ticks_length ds c obj hact, fun r hr => ?_⟩
  obtain ⟨hact1, hidx, -⟩ := ticks_forall ds c obj hact r hr
  refine ⟨by rw [hact1.1]; rfl, ?_⟩
  rcases hidx with h0 | h0 <;> rw [h0] <;> decide

/-- C5: `FromJson` returns, for every record, a component; its `RotationSpeed`
is the value of the record's `"speed"` field when the record has that field
(holding a vector), and the default `(0, 0, 30)` when the field is absent. -/
theorem FromJson_speed (data : Json) :
    (∀ j v, data.field? "speed" = some j → j.toVec3? = some v →
        (FromJson data).RotationSpeed = v) ∧
      (data.field? "speed" = none → (FromJson data).RotationSpeed = ⟨0, 0, 30⟩) := by
  constructor
  · intro j v hj hv
    simp [FromJson, JsonGet, hj, hv]
  · intro hj
    simp [FromJson, JsonGet, hj, RotatingBehaviour.constructDefault]

/-- C5 on two records: what `ToJson` writes for a component of speed `(1, 2, 3)`
is read back as `(1, 2, 3)`, and the empty record gives `(0, 0, 30)`. -/
theorem FromJson_speed_witness :
    (FromJson (ToJson (fresh 0 ⟨1, 2, 3⟩))).RotationSpeed = ⟨1, 2, 3⟩ ∧
      (FromJson (Json.object [])).RotationSpeed = ⟨0, 0, 30⟩ :=
  ⟨(FromJson_speed (ToJson (fresh 0 ⟨1, 2, 3⟩))).1 (Json.ofVec3 ⟨1, 2, 3⟩) ⟨1, 2, 3⟩ rfl rfl,
    (FromJson_speed (Json.object [])).2 rfl⟩

/-- C6: for all scalars `p0` and `p1`, `Lerp p0 p1 0 = p0` and
`Lerp p0 p1 1 = p1`. -/
theorem Lerp_endpoints (p0 p1 : ℚ) : Lerp p0 p1 0 = p0 ∧ Lerp p0 p1 1 = p1 := by
  constructor <;> simp [Lerp]

/-- C7: the ease of `Update` gives 0 at fraction 0 and 1 at fraction 1, and its
divisor at fraction 1 is 1. -/
theorem SlowInOut_zero_one :
    SlowInOut 0 = some 0 ∧ SlowInOut 1 = some 1 ∧ SlowInOutDenominator 1 = 1 := by
  norm_num [SlowInOut, fdiv, sqt, SlowInOutDenominator]

/-- C8 as stated fails: at fractions `-1` and `2` the divisor of the ease is
not zero, and `sqt - fractionOfJourney` is not `-1/2` there. -/
theorem SlowInOut_regular_at_neg_one_and_two :
    SlowInOutDenominator (-1) ≠ 0 ∧ SlowInOutDenominator 2 ≠ 0 ∧
      sqt (-1) - (-1) ≠ -1 / 2 ∧ sqt 2 - 2 ≠ -1 / 2 := by
  norm_num [sqt, SlowInOutDenominator]

/-- C8 amended: at fractions `-1` and `2` the divisor of the ease is 5 (there
`sqt - fractionOfJourney` is 2), and the ease gives `1/5` and `4/5`. -/
theorem SlowInOut_at_neg_one_and_two :
    SlowInOutDenominator (-1) = 5 ∧ SlowInOutDenominator 2 = 5 ∧
      sqt (-1) - (-1) = 2 ∧ sqt 2 - 2 = 2 ∧
      SlowInOut (-1) = some (1 / 5) ∧ SlowInOut 2 = some (4 / 5) := by
  norm_num [SlowInOut, fdiv, sqt, SlowInOutDenominator]

/-- C9 as stated fails: with start time 0 and `deltaTime` 1 three times, the
first tick sees `fractionOfJourney >= 1` and ends with `keyframe = 1`; the
third tick is the next to see it, and it ends with `keyframe = 2`, not 0. -/
theorem keyframe_two_after_second_completion :
    (lifetime 0 ⟨0, 0, 30⟩ ⟨⟨0, 0, 5⟩, ⟨0, 0, 0⟩⟩ [1, 1, 1]).map
        (fun r => (reachedEnd r, r.self.keyframe)) = [(true, 1), (false, 1), (true, 2)] := by
  simp only [lifetime, Awake_fresh]
  norm_num [ticks, Update, fresh, RotatingBehaviour.construct, fdiv, SlowInOut, sqt,
    SlowInOutDenominator, lastIndex, toSizeT, index_zero, index_one, index_two, reachedEnd, GameObject.SetPostion,
    GameObject.SetRotation, GameObject.GetPosition, GameObject.GetRotationEuler, Lerp]

/-- C9 amended: the activated component starts with `keyframe = 0`,
`_timer = 1` and `_timeStored = 0`. When tick `m` is the first to see
`fractionOfJourney >= 1` and tick `m + 1 + n` the next, tick `m` ends with
`keyframe = 1` and `_timeStored = _timer - _startTime`, tick `m + 1 + n` ends
with `keyframe = 2`, and the tick after that, if there is one, reads the
keypoints at index 0 and ends with `keyframe` 0, or 1 when it sees
`fractionOfJourney >= 1` itself. -/
theorem keyframe_after_two_completions (startTime : ℚ) (v : Vec3) (obj : GameObject)
    (ds : List ℚ) (m n : ℕ) (rest : List Bool)
    (h : (lifetime startTime v obj ds).map reachedEnd
      = List.replicate m false ++ true :: (List.replicate n false ++ true :: rest)) :
    (∃ c, Awake (fresh startTime v) obj = some c ∧
        c.keyframe = 0 ∧ c._timer = 1 ∧ c._timeStored = 0) ∧
      ∃ r1 r2, (lifetime startTime v obj ds)[m]? = some r1 ∧ r1.self.keyframe = 1 ∧
        r1.self._timeStored = r1.self._timer - startTime ∧
        (lifetime startTime v obj ds)[m + 1 + n]? = some r2 ∧ r2.self.keyframe = 2 ∧
        ∀ r3, (lifetime startTime v obj ds)[m + 1 + n + 1]? = some r3 →
          r3.readIndex = 0 ∧
            r3.self.keyframe = if 1 ≤ r3.fractionOfJourney then 1 else 0 := by
  obtain ⟨c, hc, hact, hk0, ht0, hts0⟩ := Activated_Awake startTime v obj
  refine ⟨⟨c, hc, hk0, ht0, hts0⟩, ?_⟩
  simp only [lifetime, hc] at h ⊢
  obtain ⟨r1, ds1, hget1, hk1, hts1, hact1, hdrop1⟩ :=
    ticks_first_reachedEnd m ds c obj _ hact h
  have h2 : (ticks r1.self r1.obj ds1).map reachedEnd
      = List.replicate n false ++ true :: rest := by
    rw [← hdrop1, List.map_drop, h]
    exact drop_replicate_append_cons m false true _
  obtain ⟨r2, ds2, hget2, hk2, hts2, hact2, hdrop2⟩ :=
    ticks_first_reachedEnd n ds1 r1.self r1.obj _ hact1 h2
  have hw0 : wrapped c = 0 := by simp [wrapped, hk0]
  have hkf1 : r1.self.keyframe = 1 := by rw [hk1, hw0]; rfl
  have hkf2 : r2.self.keyframe = 2 := by rw [hk2]; simp [wrapped, hkf1]
  refine ⟨r1, r2, hget1, hkf1, hts1, ?_, hkf2, ?_⟩
  · rw [← hget2, ← hdrop1, List.getElem?_drop]
  · intro r3 h3
    have h3a : (ticks r2.self r2.obj ds2)[0]? = some r3 := by
      rw [← hdrop2, ← hdrop1, List.getElem?_drop, List.getElem?_drop, ← h3]
      congr 1
    obtain ⟨ha, hb⟩ := ticks_head hact2 r2.obj ds2 r3 h3a
    have hw2 : wrapped r2.self = 0 := by simp [wrapped, hkf2]
    rw [hw2] at ha hb
    exact ⟨ha, by rw [hb]; simp⟩

/-- C9 amended, at start time 0 with `deltaTime` 1 four times: ticks 0 and 2
see `fractionOfJourney >= 1`; they end with `keyframe` 1 and 2, and tick 3
reads at index 0. -/
theorem keyframe_after_two_completions_witness :
    (lifetime 0 ⟨0, 0, 30⟩ ⟨⟨0, 0, 5⟩, ⟨0, 0, 0⟩⟩ [1, 1, 1, 1]).map reachedEnd
        = [true, false, true, false] ∧
      ∃ r1 r2, (lifetime 0 ⟨0, 0, 30⟩ ⟨⟨0, 0, 5⟩, ⟨0, 0, 0⟩⟩ [1, 1, 1, 1])[0]? = some r1 ∧
        r1.self.keyframe = 1 ∧ r1.self._timeStored = r1.self._timer - 0 ∧
        (lifetime 0 ⟨0, 0, 30⟩ ⟨⟨0, 0, 5⟩, ⟨0, 0, 0⟩⟩ [1, 1, 1, 1])[0 + 1 + 1]? = some r2 ∧
        r2.self.keyframe = 2 ∧
        ∀ r3, (lifetime 0 ⟨0, 0, 30⟩ ⟨⟨0, 0, 5⟩, ⟨0, 0, 0⟩⟩ [1, 1, 1, 1])[0 + 1 + 1 + 1]?
            = some r3 →
          r3.readIndex = 0 ∧
            r3.self.keyframe = if 1 ≤ r3.fractionOfJourney then 1 else 0 := by
  have hflags : (lifetime 0 ⟨0, 0, 30⟩ ⟨⟨0, 0, 5⟩, ⟨0, 0, 0⟩⟩ [1, 1, 1, 1]).map reachedEnd
      = [true, false, true, false] := by
    simp only [lifetime, Awake_fresh]
    norm_num [ticks, Update, fresh, RotatingBehaviour.construct, fdiv, SlowInOut, sqt,
      SlowInOutDenominator, lastIndex, toSizeT, index_zero, index_one, index_two, reachedEnd, GameObject.SetPostion,
      GameObject.SetRotation, GameObject.GetPosition, GameObject.GetRotationEuler, Lerp]
  exact ⟨hflags,
    (keyframe_after_two_completions 0 ⟨0, 0, 30⟩ ⟨⟨0, 0, 5⟩, ⟨0, 0, 0⟩⟩ [1, 1, 1, 1] 0 1 [false]
      (by rw [hflags]; rfl)).2⟩

/-- In exact arithmetic: with start time 0 the first tick, of `deltaTime` 1,
completes the first segment and ends with `keyframe = 1`, although only 1, less
than 2, has accumulated since `Awake`; the schedule counted from `Awake` has no
completion there. -/
theorem first_segment_completes_early :
    (lifetime 0 ⟨0, 0, 30⟩ ⟨⟨0, 0, 5⟩, ⟨0, 0, 0⟩⟩ [1]).map
        (fun r => (r.completed, r.self.keyframe)) = [(true, 1)] ∧
      completionSchedule 0 [1] = [false] := by
  constructor
  · simp only [lifetime, Awake_fresh]
    norm_num [ticks, Update, fresh, RotatingBehaviour.construct, fdiv, SlowInOut, sqt,
      SlowInOutDenominator, lastIndex, toSizeT, index_zero, index_one, index_two, GameObject.SetPostion,
      GameObject.SetRotation, GameObject.GetPosition, GameObject.GetRotationEuler, Lerp]
  · norm_num [completionSchedule]

/-- In exact arithmetic: for every start time and every sequence of
`deltaTime`s, no `Update` faults, a tick completes a segment exactly when it increments
`keyframe`, and the completing ticks are those of the schedule that starts with
`1 - startTime` already elapsed: the first segment completes on the first tick
at which the `deltaTime` accumulated since `Awake` reaches `1 + startTime`, each
later one on the first tick at which the `deltaTime` accumulated since the
previous completion reaches 2, and none on an earlier tick. -/
theorem segment_completion_schedule (startTime : ℚ) (v : Vec3) (obj : GameObject)
    (ds : List ℚ) :
    (lifetime startTime v obj ds).length = ds.length ∧
      (lifetime startTime v obj ds).map (fun r => r.completed)
        = completionSchedule (1 - startTime) ds ∧
      ∀ r ∈ lifetime startTime v obj ds,
        r.self.keyframe = r.readIndex + (if r.completed then 1 else 0) := by
  obtain ⟨c, hc, hact, -, ht0, hts0⟩ := Activated_Awake startTime v obj
  simp only [lifetime, hc]
  refine ⟨ticks_length ds c obj hact, ?_, fun r hr => (ticks_forall ds c obj hact r hr).2.2.1⟩
  rw [ticks_completed ds c obj hact, ht0, hts0, sub_zero]

/-- C11: for every rational fraction `f`, below 0 and above 1 included, the
divisor `2 * (f^2 - f) + 1` of the ease is strictly positive, so the ease does
not divide by zero, and the eased value `f^2 / (2 * (f^2 - f) + 1)` lies in
`[0, 1]`. Hence on every `Update` of every run (any start time, any
`deltaTime`s) the parameter that `Lerp` receives, the eased value of that
call's unclamped fraction, lies in `[0, 1]`. -/
theorem SlowInOut_within_unit_interval (f startTime : ℚ) (v : Vec3) (obj : GameObject)
    (ds : List ℚ) :
    (SlowInOutDenominator f = 2 * (f ^ 2 - f) + 1 ∧ 0 < SlowInOutDenominator f) ∧
      (∃ e, SlowInOut f = some e ∧ e = f ^ 2 / (2 * (f ^ 2 - f) + 1) ∧ 0 ≤ e ∧ e ≤ 1) ∧
      (lifetime startTime v obj ds).length = ds.length ∧
      ∀ r ∈ lifetime startTime v obj ds,
        SlowInOut r.fractionOfJourney = some r.eased ∧ 0 ≤ r.eased ∧ r.eased ≤ 1 ∧
          ∃ p0 p1, index r.self.keypoints r.readIndex = some p0 ∧
            index r.self.keypoints (r.readIndex + 1) = some p1 ∧
            r.obj.position.z = Lerp p0 p1 r.eased := by
  have hden : SlowInOutDenominator f = 2 * (f ^ 2 - f) + 1 := by
    unfold SlowInOutDenominator sqt
    ring
  have hsq : sqt f = f ^ 2 := by
    unfold sqt
    ring
  refine ⟨⟨hden, SlowInOutDenominator_pos f⟩, ⟨_, SlowInOut_eq f, by rw [hsq, hden],
    ease_nonneg f, ease_le_one f⟩, ?_⟩
  obtain ⟨c, hc, hact, -⟩ := Activated_Awake startTime v obj
  simp only [lifetime, hc]
  refine ⟨ticks_length ds c obj hact, fun r hr => ?_⟩
  obtain ⟨he, hl⟩ := ticks_locals ds c obj r hr
  have hval : r.eased = sqt r.fractionOfJourney / SlowInOutDenominator r.fractionOfJourney := by
    rw [SlowInOut_eq] at he
    exact (Option.some.inj he).symm
  exact ⟨he, by rw [hval]; exact ease_nonneg _, by rw [hval]; exact ease_le_one _, hl⟩

/-- C11 on a run whose fractions leave `[0, 1]`: with start time 5 and
`deltaTime`s 1 and 13 the fractions are `-3/2` and `5`, the eased values `9/34`
and `25/41`, and the z written from `z0 = 5` is `94/17` and `255/41`. -/
theorem SlowInOut_within_unit_interval_witness :
    (lifetime 5 ⟨0, 0, 30⟩ ⟨⟨0, 0, 5⟩, ⟨0, 0, 0⟩⟩ [1, 13]).map
        (fun r => (r.fractionOfJourney, r.eased, r.obj.position.z))
        = [(-3 / 2, 9 / 34, 94 / 17), (5, 25 / 41, 255 / 41)] ∧
      (0 < SlowInOutDenominator (-3 / 2) ∧ 0 < SlowInOutDenominator 5) ∧
      ∀ r ∈ lifetime 5 ⟨0, 0, 30⟩ ⟨⟨0, 0, 5⟩, ⟨0, 0, 0⟩⟩ [1, 13],
        0 ≤ r.eased ∧ r.eased ≤ 1 := by
  refine ⟨?_, ⟨?_, ?_⟩, fun r hr => ?_⟩
  · simp only [lifetime, Awake_fresh]
    norm_num [ticks, Update, fresh, RotatingBehaviour.construct, fdiv, SlowInOut, sqt,
      SlowInOutDenominator, lastIndex, toSizeT, index_zero, index_one, index_two,
      GameObject.SetPostion, GameObject.SetRotation, GameObject.GetPosition,
      GameObject.GetRotationEuler, Lerp]
  · exact (SlowInOut_within_unit_interval (-3 / 2) 5 ⟨0, 0, 30⟩ ⟨⟨0, 0, 5⟩, ⟨0, 0, 0⟩⟩
      [1, 13]).1.2
  · exact (SlowInOut_within_unit_interval 5 5 ⟨0, 0, 30⟩ ⟨⟨0, 0, 5⟩, ⟨0, 0, 0⟩⟩ [1, 13]).1.2
  · obtain ⟨-, h0, h1, -⟩ :=
      (SlowInOut_within_unit_interval 0 5 ⟨0, 0, 30⟩ ⟨⟨0, 0, 5⟩, ⟨0, 0, 0⟩⟩ [1, 13]).2.2.2 r hr
    exact ⟨h0, h1⟩

/-! ## Binary32 facts -/

theorem F32.add_finite (a b : ℚ) : F32.finite a + F32.finite b = F32.ofRat (a + b) := rfl

theorem F32.sub_finite (a b : ℚ) : F32.finite a - F32.finite b = F32.ofRat (a - b) := by
  show F32.ofRat (a + -b) = F32.ofRat (a - b)
  rw [sub_eq_add_neg]

theorem F32.mul_finite (a b : ℚ) : F32.finite a * F32.finite b = F32.ofRat (a * b) := rfl

theorem F32.div_finite (a b : ℚ) (hb : b ≠ 0) :
    F32.finite a / F32.finite b = F32.ofRat (a / b) := by
  show F32.div (F32.finite a) (F32.finite b) = F32.ofRat (a / b)
  simp [F32.div, hb]

theorem Vec3f.add32_def (a b : Vec3f) : a + b = ⟨a.x + b.x, a.y + b.y, a.z + b.z⟩ := rfl

theorem Vec3f.mul32_def (a : Vec3f) (s : F32) : a * s = ⟨a.x * s, a.y * s, a.z * s⟩ := rfl

theorem Exact_two : Exact 2 := by
  unfold Exact
  decide!

theorem lastIndex32_three (a b c : F32) : lastIndex32 [a, b, c] = 2 := by
  simp [lastIndex32, toSizeT]

theorem index32_zero (a : F32) (l : List F32) : index32 (a :: l) 0 = some a := by
  simp [index32]

theorem index32_one (a b : F32) (l : List F32) : index32 (a :: b :: l) 1 = some b := by
  simp [index32]

theorem index32_two (a b c : F32) (l : List F32) : index32 (a :: b :: c :: l) 2 = some c := by
  simp [index32]

/-- `Awake32` on a fresh component never faults. -/
theorem Awake32_fresh (startTime : F32) (v : Vec3f) (obj : GameObject32) :
    Awake32 (fresh32 startTime v) obj =
      some { fresh32 startTime v with
              keypoints := [obj.position.z, obj.position.z + F32.finite 2, obj.position.z]
              _journeyLength := F32.abs (obj.position.z - (obj.position.z + F32.finite 2)) } := by
  simp [Awake32, fresh32, RotatingBehaviour32.construct, GameObject32.GetPosition, index32]

/-- `Awake32` when the float sum `z0 + 2` is exact. -/
theorem Awake32_fresh_exact (startTime : F32) (v : Vec3f) (x y : F32) (rot : Vec3f) (z0 : ℚ)
    (h : Exact (z0 + 2)) :
    Awake32 (fresh32 startTime v) ⟨⟨x, y, .finite z0⟩, rot⟩ =
      some { fresh32 startTime v with
              keypoints := [.finite z0, .finite (z0 + 2), .finite z0]
              _journeyLength := .finite 2 } := by
  have h2 : F32.ofRat (-2) = F32.finite (-2) := by decide!
  have e : z0 - (z0 + 2) = -2 := by ring
  have h1 : F32.ofRat (z0 + 2) = F32.finite (z0 + 2) := h
  rw [Awake32_fresh]
  simp only [F32.add_finite, h1, F32.sub_finite, e, h2, F32.abs]
  norm_num

/-- One `Update32` on an activated binary32 component: it does not fault,
whatever the floats are, and its record is as the source computes it. -/
theorem Update32_activated {v : Vec3f} {c : RotatingBehaviour32} (h : Activated32 v c)
    (g : GameObject32) (d : F32) :
    ∃ r, Update32 c g d = some r ∧ Activated32 v r.self ∧
      r.obj.rotationEuler = g.rotationEuler + v * d ∧
      r.fractionOfJourney
        = (c._timer + d - c._startTime - c._timeStored) * c._speed / c._journeyLength ∧
      r.readIndex = wrapped32 c ∧
      r.completed = F32.ge r.fractionOfJourney (F32.finite 1) ∧
      r.self._timer = c._timer + d ∧
      r.self._startTime = c._startTime ∧ r.self._speed = c._speed ∧
      r.self._journeyLength = c._journeyLength ∧
      r.self._timeStored
        = (if r.completed = true then c._timer + d - c._startTime else c._timeStored) ∧
      r.self.keyframe = wrapped32 c + (if r.completed = true then 1 else 0) := by
  obtain ⟨hlen, hv, hkf⟩ := h
  obtain ⟨a, b, e, hk⟩ := List.length_eq_three.1 hlen
  by_cases hge : F32.ge
      ((c._timer + d - c._startTime - c._timeStored) * c._speed / c._journeyLength)
      (F32.finite 1) = true
  · rcases hkf with h0 | h0 | h0
    all_goals
      simp [Update32, Activated32, wrapped32, hk, hv, h0, hge, lastIndex32_three, toSizeT_zero,
        toSizeT_one, toSizeT_two, index32_zero, index32_one, index32_two,
        GameObject32.SetPostion, GameObject32.SetRotation, GameObject32.GetPosition,
        GameObject32.GetRotationEuler]
  · rcases hkf with h0 | h0 | h0
    all_goals
      simp [Update32, Activated32, wrapped32, hk, hv, h0, hge, lastIndex32_three, toSizeT_zero,
        toSizeT_one, toSizeT_two, index32_zero, index32_one, index32_two,
        GameObject32.SetPostion, GameObject32.SetRotation, GameObject32.GetPosition,
        GameObject32.GetRotationEuler]

theorem Activated32_Awake32 (startTime : F32) (v : Vec3f) (obj : GameObject32) :
    ∃ c, Awake32 (fresh32 startTime v) obj = some c ∧ Activated32 v c :=
  ⟨_, Awake32_fresh startTime v obj, by
    simp [Activated32, fresh32, RotatingBehaviour32.construct]⟩

/-- No `Update32` of an activated binary32 component faults. -/
theorem ticks32_length {v : Vec3f} (ds : List F32) :
    ∀ (c : RotatingBehaviour32) (g : GameObject32), Activated32 v c →
      (ticks32 c g ds).length = ds.length := by
  induction ds with
  | nil => intro c g _; rfl
  | cons d ds ih =>
    intro c g h
    obtain ⟨r, hr, hact, -⟩ := Update32_activated h g d
    simp [ticks32, hr, ih r.self r.obj hact]

/-- Every record of a binary32 run from an activated component ends one past
the index it read at exactly when it completed a segment. -/
theorem ticks32_forall {v : Vec3f} (ds : List F32) :
    ∀ (c : RotatingBehaviour32) (g : GameObject32), Activated32 v c →
      ∀ r ∈ ticks32 c g ds,
        r.self.keyframe = r.readIndex + (if r.completed = true then 1 else 0) := by
  induction ds with
  | nil => intro c g _ r hr; simp [ticks32] at hr
  | cons d ds ih =>
    intro c g h r hr
    obtain ⟨r0, hr0, hact, -, -, hidx, -, -, -, -, -, -, hkf⟩ := Update32_activated h g d
    simp only [ticks32, hr0, List.mem_cons] at hr
    rcases hr with rfl | hr
    · rw [hkf, hidx]
    · exact ih r0.self r0.obj hact r hr

/-- One axis of the rotation integration when its float operations are exact. -/
theorem rotation_axis_exact {v r d : ℚ} (h1 : Exact (v * d)) (h2 : Exact (r + v * d)) :
    F32.finite r + F32.finite v * F32.finite d = F32.finite (r + v * d) := by
  have e1 : F32.ofRat (v * d) = F32.finite (v * d) := h1
  have e2 : F32.ofRat (r + v * d) = F32.finite (r + v * d) := h2
  rw [F32.mul_finite, e1, F32.add_finite, e2]

/-- A binary32 run whose rotation integration is exact on each axis ends with
the exact rotation. -/
theorem run32_rotation {vx vy vz : ℚ} (ds : List ℚ) :
    ∀ (c : RotatingBehaviour32) (p : Vec3f) (rx ry rz : ℚ),
      Activated32 ⟨.finite vx, .finite vy, .finite vz⟩ c →
      ExactRotation vx rx ds → ExactRotation vy ry ds → ExactRotation vz rz ds →
      ∃ c1 g1, run32 c ⟨p, ⟨.finite rx, .finite ry, .finite rz⟩⟩ (ds.map F32.finite)
          = some (c1, g1) ∧
        g1.rotationEuler = ⟨.finite (rx + vx * ds.sum), .finite (ry + vy * ds.sum),
          .finite (rz + vz * ds.sum)⟩ := by
  induction ds with
  | nil =>
    intro c p rx ry rz _ _ _ _
    exact ⟨c, _, rfl, by simp⟩
  | cons d ds ih =>
    intro c p rx ry rz h hx hy hz
    obtain ⟨r0, hr0, hact, hrot, -⟩ := Update32_activated h
      ⟨p, ⟨.finite rx, .finite ry, .finite rz⟩⟩ (.finite d)
    simp only [ExactRotation] at hx hy hz
    have hobj : r0.obj = ⟨r0.obj.position,
        ⟨.finite (rx + vx * d), .finite (ry + vy * d), .finite (rz + vz * d)⟩⟩ := by
      cases hg : r0.obj with
      | mk pos rot =>
        rw [hg] at hrot
        simp only [Vec3f.add32_def, Vec3f.mul32_def, rotation_axis_exact hx.1 hx.2.1,
          rotation_axis_exact hy.1 hy.2.1, rotation_axis_exact hz.1 hz.2.1] at hrot
        rw [hrot]
    obtain ⟨c1, g1, hrun, hg1⟩ := ih r0.self r0.obj.position _ _ _ hact hx.2.2 hy.2.2 hz.2.2
    refine ⟨c1, g1, ?_, ?_⟩
    · simp only [List.map_cons, run32, hr0]
      rw [hobj]
      exact hrun
    · rw [hg1]
      simp only [List.sum_cons, Vec3f.mk.injEq, F32.finite.injEq]
      refine ⟨?_, ?_, ?_⟩ <;> ring

/-- One `Update32` whose clock operations are exact: the fraction is the exact
one, and the clock fields stay exact. -/
theorem Update32_clocked {v : Vec3f} {c : RotatingBehaviour32} {startTime timer stored d : ℚ}
    (h : Activated32 v c) (hc : Clocked startTime timer stored c) (g : GameObject32)
    (h1 : Exact (timer + d)) (h2 : Exact (timer + d - startTime))
    (h3 : Exact (timer + d - startTime - stored))
    (h4 : Exact ((timer + d - startTime - stored) / 2)) :
    ∃ r, Update32 c g (.finite d) = some r ∧ Activated32 v r.self ∧
      r.completed = decide (2 ≤ timer + d - startTime - stored) ∧
      Clocked startTime (timer + d)
        (if 2 ≤ timer + d - startTime - stored then timer + d - startTime else stored)
        r.self := by
  obtain ⟨r, hr, hact, -, hf, -, hcomp, ht, hst, hsp, hjl, hts, -⟩ :=
    Update32_activated h g (.finite d)
  obtain ⟨cst, ct, cs, csp, cjl⟩ := hc
  have e1 : F32.ofRat (timer + d) = F32.finite (timer + d) := h1
  have e2 : F32.ofRat (timer + d - startTime) = F32.finite (timer + d - startTime) := h2
  have e3 : F32.ofRat (timer + d - startTime - stored)
      = F32.finite (timer + d - startTime - stored) := h3
  have e4 : F32.ofRat ((timer + d - startTime - stored) / 2)
      = F32.finite ((timer + d - startTime - stored) / 2) := h4
  have hfrac : r.fractionOfJourney = F32.finite ((timer + d - startTime - stored) / 2) := by
    rw [hf, cst, ct, cs, csp, cjl, F32.add_finite, e1, F32.sub_finite, e2, F32.sub_finite, e3,
      F32.mul_finite, mul_one, e3, F32.div_finite _ _ (by norm_num), e4]
  have hiff : (1 : ℚ) ≤ (timer + d - startTime - stored) / 2
      ↔ 2 ≤ timer + d - startTime - stored := by
    rw [le_div_iff₀ (by norm_num : (0 : ℚ) < 2)]
    norm_num
  have hcomp2 : r.completed = decide (2 ≤ timer + d - startTime - stored) := by
    rw [hcomp, hfrac]
    simp only [F32.ge, hiff]
  refine ⟨r, hr, hact, hcomp2, ?_⟩
  refine ⟨by rw [hst, cst], by rw [ht, ct, F32.add_finite, e1], ?_, by rw [hsp, csp],
    by rw [hjl, cjl]⟩
  rw [hts, hcomp2]
  by_cases h5 : 2 ≤ timer + d - startTime - stored
  · simp only [h5, decide_True, if_true]
    rw [ct, cst, F32.add_finite, e1, F32.sub_finite, e2]
  · simp only [h5, decide_False, if_false, Bool.false_eq_true]
    exact cs

/-- A binary32 run whose clock operations are exact completes segments on the
ticks the schedule names, with `_timer - _startTime - _timeStored` already
elapsed in the current segment. -/
theorem ticks32_completed {v : Vec3f} {startTime : ℚ} (ds : List ℚ) :
    ∀ (c : RotatingBehaviour32) (g : GameObject32) (timer stored : ℚ),
      Activated32 v c → Clocked startTime timer stored c → ExactClock startTime timer stored ds →
      (ticks32 c g (ds.map F32.finite)).map (fun r => r.completed)
        = completionSchedule (timer - startTime - stored) ds := by
  induction ds with
  | nil => intro c g _ _ _ _ _; rfl
  | cons d ds ih =>
    intro c g timer stored h hc hx
    simp only [ExactClock] at hx
    obtain ⟨h1, h2, h3, h4, hrest⟩ := hx
    obtain ⟨r, hr, hact, hcomp, hclk⟩ := Update32_clocked h hc g h1 h2 h3 h4
    have e : timer + d - startTime - stored = timer - startTime - stored + d := by ring
    simp only [List.map_cons, ticks32, hr, completionSchedule, hcomp,
      ih r.self r.obj _ _ hact hclk hrest]
    by_cases h5 : 2 ≤ timer + d - startTime - stored
    · have h6 : 2 ≤ timer - startTime - stored + d := by rw [← e]; exact h5
      simp [h5, h6]
    · have h6 : ¬ 2 ≤ timer - startTime - stored + d := by rw [← e]; exact h5
      simp only [h5, h6, if_false, decide_False, e]

/-! ## What the rounding fixes -/

theorem binade_bounds (y : ℚ) (E : Int) (hy : y < pow2 (E + 1)) :
    ∀ (fuel : Nat) (e0 : Int), e0 ≤ E → (E - e0).toNat ≤ fuel →
      e0 ≤ binade y fuel e0 ∧ binade y fuel e0 ≤ E := by
  intro fuel
  induction fuel with
  | zero =>
    intro e0 h1 h2
    have : e0 = E := by omega
    simp [binade, this]
  | succ fuel ih =>
    intro e0 h1 h2
    unfold binade
    split
    · exact ⟨le_refl _, h1⟩
    · rename_i hlt
      have hne : e0 ≠ E := fun h => hlt (h ▸ hy)
      have h3 : e0 + 1 ≤ E := by omega
      obtain ⟨h4, h5⟩ := ih (e0 + 1) h3 (by omega)
      exact ⟨by omega, h5⟩

theorem roundHalfEven_intCast (m : Int) : roundHalfEven (m : ℚ) = m := by
  simp [roundHalfEven]

theorem pow2_nonpos (j : Int) (hj : j ≤ 0) : pow2 j = 1 / ((2 ^ (-j).toNat : ℕ) : ℚ) := by
  unfold pow2
  split
  · have : j = 0 := by omega
    subst this
    simp
  · rfl

/-- Every integer of magnitude below `2^24` is a binary32 value: the rounding
leaves it as it is. -/
theorem Exact_intCast (n : Int) (h : |n| < 16777216) : Exact (n : ℚ) := by
  have hy : |(n : ℚ)| < pow2 (23 + 1) := by
    have h1 : |(n : ℚ)| = ((|n| : Int) : ℚ) := by simp
    have h2 : pow2 (23 + 1) = ((16777216 : Int) : ℚ) := by decide!
    rw [h1, h2]
    exact_mod_cast h
  obtain ⟨-, h2⟩ := binade_bounds |(n : ℚ)| 23 hy 254 (-126) (by norm_num) (by decide)
  have hr : round32 (n : ℚ) = n := by
    unfold round32
    generalize binade |(n : ℚ)| 254 (-126) = e at h2
    rw [pow2_nonpos (e - 23) (by omega)]
    have hK : ((2 ^ (-(e - 23)).toNat : ℕ) : ℚ) ≠ 0 := by positivity
    have hcast : (n : ℚ) / (1 / ((2 ^ (-(e - 23)).toNat : ℕ) : ℚ))
        = ((n * ((2 ^ (-(e - 23)).toNat : ℕ) : Int) : Int) : ℚ) := by
      push_cast
      field_simp
    rw [hcast, roundHalfEven_intCast]
    push_cast
    field_simp
  have hb : |(n : ℚ)| < pow2 128 := by
    have h3 : pow2 (23 + 1) ≤ pow2 128 := by decide!
    exact lt_of_lt_of_le hy h3
  have hb1 := (abs_lt.1 hb).1
  have hb2 := (abs_lt.1 hb).2
  unfold Exact F32.ofRat
  rw [hr, if_neg (not_le.2 hb2), if_neg (not_le.2 hb1)]

/-- The rounding at work: a tie goes to the even significand, on either side of
zero; the float nearest `1/3`; half the least subnormal rounds to zero and
three halves of it to twice it; `2^128 - 2^103` is the least value that
overflows, and just below it the result is the largest float. -/
theorem round32_examples :
    round32 16777217 = 16777216 ∧ round32 16777219 = 16777220 ∧
      round32 (-16777219) = -16777220 ∧ round32 (1 / 3) = 11184811 / 33554432 ∧
      round32 (pow2 (-150)) = 0 ∧ round32 (3 * pow2 (-150)) = pow2 (-148) ∧
      F32.ofRat (pow2 128 - pow2 103) = .posInf ∧
      F32.ofRat (pow2 128 - pow2 103 - 1) = .finite (pow2 128 - pow2 104) ∧
      F32.ofRat (-(pow2 128)) = .negInf := by
  refine ⟨by decide!, by decide!, by decide!, by decide!, by decide!, by decide!, by decide!,
    by decide!, by decide!⟩

/-! ## The claims that depend on float rounding -/

/-- C2 as stated fails in binary32. With rotation `z = 2^24`, speed
`(0, 0, 1)` and `deltaTime` 1 twice, each float sum `16777216 + 1` rounds back
to `16777216`, so the rotation ends at `16777216`, not at
`16777216 + 1 * (1 + 1) = 16777218`. With speed `(0, 0, 30)` and `deltaTime`
the float nearest `1/60`, three ticks give `1/2, 1, 3/2`, while
`30 * deltaTime` is not `1/2`. -/
theorem rotation_sum_rounds :
    (lifetimeEnd32 (.finite 0) ⟨.finite 0, .finite 0, .finite 1⟩
        ⟨⟨.finite 0, .finite 0, .finite 5⟩, ⟨.finite 0, .finite 0, .finite 16777216⟩⟩
        [.finite 1, .finite 1]).map (fun p => p.2.rotationEuler.z)
        = some (.finite 16777216) ∧
      (16777216 : ℚ) + 1 * [1, 1].sum = 16777218 ∧
      F32.ofRat (1 / 60) = .finite (8947849 / 536870912) ∧
      (lifetime32 (.finite 0) ⟨.finite 0, .finite 0, .finite 30⟩
        ⟨⟨.finite 0, .finite 0, .finite 5⟩, ⟨.finite 0, .finite 0, .finite 0⟩⟩
        [F32.ofRat (1 / 60), F32.ofRat (1 / 60), F32.ofRat (1 / 60)]).map
          (fun r => r.obj.rotationEuler.z)
        = [.finite (1 / 2), .finite 1, .finite (3 / 2)] ∧
      (30 : ℚ) * (8947849 / 536870912) ≠ 1 / 2 := by
  refine ⟨by decide!, by norm_num, by decide!, by decide!, by norm_num⟩

/-- C2 amended: for every finite initial Euler rotation, every finite rotation
speed `v` and every sequence of `deltaTime`s, when each float product `v * d`
and each float sum `r + v * d` of the integration is exact on each axis, the
binary32 run of `Update`s on the activated component ends without fault and
the owner's Euler rotation is then the initial one plus `v` times the sum of
the `deltaTime`s, componentwise. -/
theorem rotation_after_exact_ticks (startTime : F32) (position : Vec3f)
    (vx vy vz rx ry rz : ℚ) (ds : List ℚ)
    (hx : ExactRotation vx rx ds) (hy : ExactRotation vy ry ds) (hz : ExactRotation vz rz ds) :
    ∃ c g, lifetimeEnd32 startTime ⟨.finite vx, .finite vy, .finite vz⟩
        ⟨position, ⟨.finite rx, .finite ry, .finite rz⟩⟩ (ds.map F32.finite) = some (c, g) ∧
      g.rotationEuler = ⟨.finite (rx + vx * ds.sum), .finite (ry + vy * ds.sum),
        .finite (rz + vz * ds.sum)⟩ := by
  obtain ⟨c, hc, hact⟩ := Activated32_Awake32 startTime ⟨.finite vx, .finite vy, .finite vz⟩
    ⟨position, ⟨.finite rx, .finite ry, .finite rz⟩⟩
  obtain ⟨c1, g1, hrun, hrot⟩ := run32_rotation ds c position rx ry rz hact hx hy hz
  exact ⟨c1, g1, by simp only [lifetimeEnd32, hc, hrun], hrot⟩

/-- C2 amended, at the spec's scenario: rotation speed `(0, 0, 30)`, initial
rotation 0 and `deltaTime` 1 four times; every product and sum is exact and
the rotation ends at `z = 120`. -/
theorem rotation_after_exact_ticks_witness :
    (ExactRotation 0 0 [1, 1, 1, 1] ∧ ExactRotation 30 0 [1, 1, 1, 1]) ∧
      ∃ c g, lifetimeEnd32 (.finite 0) ⟨.finite 0, .finite 0, .finite 30⟩
          ⟨⟨.finite 0, .finite 0, .finite 5⟩, ⟨.finite 0, .finite 0, .finite 0⟩⟩
          ([1, 1, 1, 1].map F32.finite) = some (c, g) ∧
        g.rotationEuler = ⟨.finite (0 + 0 * [1, 1, 1, 1].sum),
          .finite (0 + 0 * [1, 1, 1, 1].sum), .finite (0 + 30 * [1, 1, 1, 1].sum)⟩ := by
  have h0 : ExactRotation 0 0 [1, 1, 1, 1] := by
    simp only [ExactRotation, Exact]
    decide!
  have h30 : ExactRotation 30 0 [1, 1, 1, 1] := by
    simp only [ExactRotation, Exact]
    decide!
  exact ⟨⟨h0, h30⟩, rotation_after_exact_ticks (.finite 0) ⟨.finite 0, .finite 0, .finite 5⟩
    0 0 30 0 0 0 [1, 1, 1, 1] h0 h0 h30⟩

/-- C3 as stated fails in binary32. At `z0 = 10^8` the float sum `z0 + 2`
rounds back to `z0`: `Awake` leaves `keypoints = [z0, z0, z0]` and
`_journeyLength = 0`. At `z0` the float nearest `1/10` it leaves
`_journeyLength = 16777215/8388608`, just under 2. -/
theorem Awake32_absorbs_offset :
    (Awake32 (fresh32 (.finite 0) ⟨.finite 0, .finite 0, .finite 30⟩)
        ⟨⟨.finite 0, .finite 0, .finite 100000000⟩, ⟨.finite 0, .finite 0, .finite 0⟩⟩).map
        (fun c => (c.keypoints, c._journeyLength))
        = some ([.finite 100000000, .finite 100000000, .finite 100000000], .finite 0) ∧
      F32.ofRat (1 / 10) = .finite (13421773 / 134217728) ∧
      (Awake32 (fresh32 (.finite 0) ⟨.finite 0, .finite 0, .finite 30⟩)
        ⟨⟨.finite 0, .finite 0, F32.ofRat (1 / 10)⟩, ⟨.finite 0, .finite 0, .finite 0⟩⟩).map
        (fun c => c._journeyLength) = some (.finite (16777215 / 8388608)) := by
  refine ⟨by decide!, by decide!, by decide!⟩

/-- C3 amended: for every finite owner z-coordinate `z0` whose float sum
`z0 + 2` is exact, `Awake` called once on a freshly constructed component
succeeds and leaves `keypoints = [z0, z0 + 2, z0]` and `_journeyLength = 2`. -/
theorem Awake32_keypoints_journeyLength (startTime : F32) (v : Vec3f) (x y : F32)
    (rot : Vec3f) (z0 : ℚ) (h : Exact (z0 + 2)) :
    ∃ c, Awake32 (fresh32 startTime v) ⟨⟨x, y, .finite z0⟩, rot⟩ = some c ∧
      c.keypoints = [.finite z0, .finite (z0 + 2), .finite z0] ∧
      c._journeyLength = .finite 2 :=
  ⟨_, Awake32_fresh_exact startTime v x y rot z0 h, rfl, rfl⟩

/-- C3 amended, at `z0 = 5`: `5 + 2` is exact, the keypoints are `[5, 7, 5]`
and the journey length is 2. -/
theorem Awake32_keypoints_journeyLength_witness :
    Exact (5 + 2) ∧
      ∃ c, Awake32 (fresh32 (.finite 0) ⟨.finite 0, .finite 0, .finite 30⟩)
          ⟨⟨.finite 0, .finite 0, .finite 5⟩, ⟨.finite 0, .finite 0, .finite 0⟩⟩ = some c ∧
        c.keypoints = [.finite 5, .finite (5 + 2), .finite 5] ∧
        c._journeyLength = .finite 2 := by
  have h : Exact (5 + 2) := by
    unfold Exact
    decide!
  exact ⟨h, Awake32_keypoints_journeyLength (.finite 0) ⟨.finite 0, .finite 0, .finite 30⟩
    (.finite 0) (.finite 0) ⟨.finite 0, .finite 0, .finite 0⟩ 5 h⟩

/-- C10 as stated fails in binary32. With start time 0 the first tick, of
`deltaTime` 1, completes the first segment and ends with `keyframe = 1`,
although only 1, less than 2, has accumulated since `Awake`. And with
`deltaTime` the float nearest `1/3` ten times, the rounded `_timer` completes
the second segment on tick 10, while the `deltaTime` accumulated since the
first completion reaches 2 on tick 9. -/
theorem segment_completion_rounds :
    (lifetime32 (.finite 0) ⟨.finite 0, .finite 0, .finite 30⟩
        ⟨⟨.finite 0, .finite 0, .finite 5⟩, ⟨.finite 0, .finite 0, .finite 0⟩⟩ [.finite 1]).map
        (fun r => (r.completed, r.self.keyframe)) = [(true, 1)] ∧
      completionSchedule 0 [1] = [false] ∧
      F32.ofRat (1 / 3) = .finite (11184811 / 33554432) ∧
      (lifetime32 (.finite 0) ⟨.finite 0, .finite 0, .finite 30⟩
        ⟨⟨.finite 0, .finite 0, .finite 5⟩, ⟨.finite 0, .finite 0, .finite 0⟩⟩
        (List.replicate 10 (F32.ofRat (1 / 3)))).map (fun r => r.completed)
        = [false, false, true, false, false, false, false, false, false, true] ∧
      completionSchedule (1 - 0) (List.replicate 10 (11184811 / 33554432))
        = [false, false, true, false, false, false, false, false, true, false] := by
  refine ⟨by decide!, by decide!, by decide!, by decide!, by decide!⟩

/-- C10 amended: for every start time, owner and sequence of `deltaTime`s for
which the float operations on the clock are exact (`z0 + 2`, and on each tick
`_timer + deltaTime`, that minus `_startTime`, that minus `_timeStored`, and
its half), no `Update` faults, a tick completes a segment exactly when it
increments `keyframe`, and the completing ticks are those of the schedule that
starts with `1 - startTime` already elapsed: the first segment completes on
the first tick at which the `deltaTime` accumulated since `Awake` reaches
`1 + startTime`, each later one on the first tick at which the `deltaTime`
accumulated since the previous completion reaches 2, and none on an earlier
tick. -/
theorem segment_completion_schedule32 (startTime z0 : ℚ) (v : Vec3f) (x y : F32)
    (rot : Vec3f) (ds : List ℚ) (hz : Exact (z0 + 2)) (hc : ExactClock startTime 1 0 ds) :
    (lifetime32 (.finite startTime) v ⟨⟨x, y, .finite z0⟩, rot⟩ (ds.map F32.finite)).length
        = ds.length ∧
      (lifetime32 (.finite startTime) v ⟨⟨x, y, .finite z0⟩, rot⟩ (ds.map F32.finite)).map
          (fun r => r.completed) = completionSchedule (1 - startTime) ds ∧
      ∀ r ∈ lifetime32 (.finite startTime) v ⟨⟨x, y, .finite z0⟩, rot⟩ (ds.map F32.finite),
        r.self.keyframe = r.readIndex + (if r.completed = true then 1 else 0) := by
  have hact : Activated32 v { fresh32 (.finite startTime) v with
      keypoints := [.finite z0, .finite (z0 + 2), .finite z0]
      _journeyLength := .finite 2 } := by
    simp [Activated32, fresh32, RotatingBehaviour32.construct]
  have hclk : Clocked startTime 1 0 { fresh32 (.finite startTime) v with
      keypoints := [.finite z0, .finite (z0 + 2), .finite z0]
      _journeyLength := .finite 2 } := by
    simp [Clocked, fresh32, RotatingBehaviour32.construct]
  simp only [lifetime32, Awake32_fresh_exact (.finite startTime) v x y rot z0 hz]
  refine ⟨?_, ?_, fun r hr => ticks32_forall _ _ _ hact r hr⟩
  · rw [ticks32_length _ _ _ hact, List.length_map]
  · rw [ticks32_completed ds _ _ 1 0 hact hclk hc, sub_zero]

/-- C10 amended, at start time `1/2`, owner at `z0 = 5` and `deltaTime`s
`1/2, 1/2, 1/2, 1, 1`: every clock operation is exact; the first segment
completes on tick 3, when `3/2 = 1 + 1/2` has accumulated, and the second on
tick 5, two later. -/
theorem segment_completion_schedule32_witness :
    (Exact (5 + 2) ∧ ExactClock (1 / 2) 1 0 [1 / 2, 1 / 2, 1 / 2, 1, 1]) ∧
      (lifetime32 (.finite (1 / 2)) ⟨.finite 0, .finite 0, .finite 30⟩
        ⟨⟨.finite 0, .finite 0, .finite 5⟩, ⟨.finite 0, .finite 0, .finite 0⟩⟩
        ([1 / 2, 1 / 2, 1 / 2, 1, 1].map F32.finite)).map (fun r => r.completed)
        = [false, false, true, false, true] := by
  have hz : Exact (5 + 2) := by
    unfold Exact
    decide!
  have hc : ExactClock (1 / 2) 1 0 [1 / 2, 1 / 2, 1 / 2, 1, 1] := by
    simp only [ExactClock, Exact]
    decide!
  refine ⟨⟨hz, hc⟩, ?_⟩
  rw [(segment_completion_schedule32 (1 / 2) 5 ⟨.finite 0, .finite 0, .finite 30⟩ (.finite 0)
    (.finite 0) ⟨.finite 0, .finite 0, .finite 0⟩ [1 / 2, 1 / 2, 1 / 2, 1, 1] hz hc).2.1]
  decide!

end Otter
